import Mathlib

/-!
Verification of the `optoifocad` front end (tokenizer + packrat parser).

The development shallowly embeds `src/optoifocad/tokenizer.py` and
`src/optoifocad/parser.py` (plus the small data containers of
`containers.py` and the exception shape of `exceptions.py`).  Two modules
imported by the sources, `optoifocad/tokens.py` (the token regular
expressions) and `optoifocad/memoize.py` (the memoization engine), are not
present under `src/`; the definitions standing in for them are modelled
from the spec and marked as such in their doc comments.

Python dynamic failures are embedded explicitly: `PyErr.attributeError`
stands for an `AttributeError` (e.g. reading `.name` off an `io.StringIO`,
or `.lineno` off a tokenizer that only defines `_lineno`), and
`PyErr.typeError` for a `TypeError` (e.g. calling
`OptocadSyntaxError.__init__` with too few positional arguments, or
concatenating `str` and `int`).

The pull-based token stream is consumed eagerly here (the whole input is
tokenized before parsing starts); on every input evaluated in the theorems
below the tokenizer succeeds, so this is observationally identical to the
lazy pull of the Python code.
-/

namespace Optoifocad

/-- Token kinds, from the spec's data model and the tokenizer's rule table
(`_TOKEN_RULES` plus the `LITERALS` of the missing `tokens.py`). -/
inductive TokType where
  | NEWLINE | COMMENT | NUMBER | STRING | NAME
  | COMMA | EQUALS | PLUS | MINUS | TIMES | DIVIDE | FLOORDIVIDE | POWER
  | LPAREN | RPAREN | LBRACKET | RBRACKET | LBRACE | RBRACE
  | ENDMARKER
deriving DecidableEq, Repr

/-- `tokenizer.py` `Token` dataclass.  `value` is the matched source text
(`matches.group()`); the synthetic NEWLINE and the ENDMARKER carry no value
(`None`). -/
structure Token where
  lineno : Nat
  start_index : Nat
  stop_index : Nat
  type : TokType
  value : Option String
deriving DecidableEq, Repr

/-- Embedded Python exceptions.  `syntaxError` carries the payload of a
successfully constructed `OptocadSyntaxError` (message, line, start/stop
columns, offending text); `attributeError` and `typeError` embed the
dynamic errors described in the module docstring above. -/
inductive PyErr where
  | attributeError
  | typeError
  | syntaxError (msg : String) (lineno : Nat) (startIdx : Nat) (stopIdx : Nat)
      (text : Option String)
deriving DecidableEq, Repr

/-- A single-quote character (codepoint 39), used to embed the quoted
bracket/character in the tokenizer's error messages. -/
def squote : String := String.singleton (Char.ofNat 39)

/-- Message of `_raise_error(f"extraneous '{...}'", token)`. -/
def extraneousMsg (b : String) : String := "extraneous " ++ squote ++ b ++ squote

/-- Message of `_raise_error(f"unclosed '{token.value}'", token)`. -/
def unclosedMsg (b : String) : String := "unclosed " ++ squote ++ b ++ squote

/-- Message of `_raise_lexing_error`: `f"illegal character {repr(value[0])}"`
(for a printable character Python's `repr` is the character between single
quotes). -/
def illegalCharMsg (c : Char) : String :=
  "illegal character " ++ squote ++ String.singleton c ++ squote

/-- `OptocadTokenizer._TAB_SIZE`. -/
def tabWidth : Nat := 4

/-- Opening-brace and closing-brace characters (codepoints 123 and 125). -/
def lbraceChar : Char := Char.ofNat 123

def rbraceChar : Char := Char.ofNat 125

def isNewlineChar (c : Char) : Bool := c == '\n' || c == '\r'

def isNameStart (c : Char) : Bool := c.isAlpha || c == '_'

def isNameCont (c : Char) : Bool := c.isAlpha || c.isDigit || c == '_' || c == '.'

/-- Modelled from the spec: the NEWLINE rule of the missing `tokens.py`
(a run of line-terminator characters; `on_NEWLINE` adds `len(value)` to the
line counter, so the rule matches the whole run). -/
def matchNEWLINE (cs : List Char) : Option (List Char) :=
  let run := cs.takeWhile isNewlineChar
  if run.isEmpty then none else some run

/-- Modelled from the spec: the COMMENT rule of the missing `tokens.py`
(`#` up to the end of the line). -/
def matchCOMMENT : List Char → Option (List Char)
  | '#' :: rest => some ('#' :: rest.takeWhile (fun c => !isNewlineChar c))
  | _ => none

def numFrac : List Char → List Char
  | '.' :: rest => '.' :: rest.takeWhile Char.isDigit
  | _ => []

/-- Modelled from the spec: the NUMBER rule of the missing `tokens.py`.
The spec requires that it match `inf` (hence NUMBER is tried before NAME)
and that integer literals with leading zeros be rejected at the lexical
level (so `01` lexes as the two adjacent NUMBER tokens `0` and `1`, cf. the
numeric-literal adjacency error of §4.3): an integer part is `0` or a
nonzero digit followed by digits, with an optional fraction `.digits*`. -/
def matchNUMBER : List Char → Option (List Char)
  | 'i' :: 'n' :: 'f' :: _ => some ['i', 'n', 'f']
  | '0' :: rest => some ('0' :: numFrac rest)
  | c :: rest =>
    if c.isDigit then
      let ds := rest.takeWhile Char.isDigit
      some (c :: (ds ++ numFrac (rest.drop ds.length)))
    else none
  | [] => none

/-- Modelled from the spec: the STRING rule of the missing `tokens.py`
(double-quoted text on one line). -/
def matchSTRING : List Char → Option (List Char)
  | '"' :: rest =>
    let body := rest.takeWhile (fun c => !(c == '"' || isNewlineChar c))
    match rest.drop body.length with
    | '"' :: _ => some ('"' :: (body ++ ['"']))
    | _ => none
  | _ => none

/-- Modelled from the spec: the NAME rule of the missing `tokens.py`
(identifier-like, with `.` allowed inside to support reference operands
such as `l1.P`, cf. the `expr4` docstring). -/
def matchNAME : List Char → Option (List Char)
  | c :: rest => if isNameStart c then some (c :: rest.takeWhile isNameCont) else none
  | [] => none

/-- Modelled from the spec: the `LITERALS` table of the missing
`tokens.py`.  The two-character literals `**` and `//` must win over `*`
and `/` (the expression grammar has distinct POWER and FLOORDIVIDE
tokens and scenario 8 requires `3**2` to contain a single `**` token). -/
def matchLITERAL : List Char → Option (TokType × List Char)
  | '*' :: '*' :: _ => some (.POWER, ['*', '*'])
  | '/' :: '/' :: _ => some (.FLOORDIVIDE, ['/', '/'])
  | ',' :: _ => some (.COMMA, [','])
  | '=' :: _ => some (.EQUALS, ['='])
  | '+' :: _ => some (.PLUS, ['+'])
  | '-' :: _ => some (.MINUS, ['-'])
  | '*' :: _ => some (.TIMES, ['*'])
  | '/' :: _ => some (.DIVIDE, ['/'])
  | '(' :: _ => some (.LPAREN, ['('])
  | ')' :: _ => some (.RPAREN, [')'])
  | '[' :: _ => some (.LBRACKET, ['['])
  | ']' :: _ => some (.RBRACKET, [']'])
  | c :: _ =>
    if c == lbraceChar then some (.LBRACE, [c])
    else if c == rbraceChar then some (.RBRACE, [c])
    else none
  | [] => none

/-- The combined matcher (`_build_rules`): the alternation tries the rules
in the order of `_TOKEN_RULES`: NEWLINE, COMMENT, NUMBER, STRING, NAME,
then the punctuation literals. -/
def matchToken (cs : List Char) : Option (TokType × List Char) :=
  match matchNEWLINE cs with
  | some v => some (.NEWLINE, v)
  | none =>
  match matchCOMMENT cs with
  | some v => some (.COMMENT, v)
  | none =>
  match matchNUMBER cs with
  | some v => some (.NUMBER, v)
  | none =>
  match matchSTRING cs with
  | some v => some (.STRING, v)
  | none =>
  match matchNAME cs with
  | some v => some (.NAME, v)
  | none => matchLITERAL cs

/-- `fobj.readline()` semantics: the input split into lines, each line
keeping its trailing `'\n'`; the last line may lack one. -/
def splitLinesAux : List Char → List Char → List (List Char)
  | [], acc => if acc.isEmpty then [] else [acc.reverse]
  | '\n' :: rest, acc => ('\n' :: acc).reverse :: splitLinesAux rest []
  | c :: rest, acc => splitLinesAux rest (c :: acc)

def splitLines (cs : List Char) : List (List Char) := splitLinesAux cs []

def countTabs (v : List Char) : Nat := (v.filter (· == '\t')).length

def extraneousErr (b : String) (tok : Token) : PyErr :=
  .syntaxError (extraneousMsg b) tok.lineno tok.start_index tok.stop_index tok.value

def unclosedErr (tok : Token) : PyErr :=
  .syntaxError (unclosedMsg (tok.value.getD "")) tok.lineno tok.start_index
    tok.stop_index tok.value

/-- The per-kind token callbacks (`on_NEWLINE`, `on_LBRACKET`,
`on_RBRACKET`, `on_LPAREN`, `on_RPAREN`): line counting and the
bracket-nesting stack (`_nesting`, a Python list appended at the end and
popped from the end).  A closer pops and checks the popped opener's value;
an empty stack or a kind mismatch raises the located "extraneous" error. -/
def applyCallback (tok : Token) (ty : TokType) (v : List Char) (ln : Nat)
    (ns : List Token) : Except PyErr (Nat × List Token) :=
  match ty with
  | .NEWLINE => .ok (ln + v.length, ns)
  | .LBRACKET => .ok (ln, ns ++ [tok])
  | .LPAREN => .ok (ln, ns ++ [tok])
  | .RBRACKET =>
    match ns.getLast? with
    | some opener =>
      if opener.value == some "[" then .ok (ln, ns.dropLast)
      else .error (extraneousErr "]" tok)
    | none => .error (extraneousErr "]" tok)
  | .RPAREN =>
    match ns.getLast? with
    | some opener =>
      if opener.value == some "(" then .ok (ln, ns.dropLast)
      else .error (extraneousErr ")" tok)
    | none => .error (extraneousErr ")" tok)
  | _ => .ok (ln, ns)

/-- The inner loop of `tokenize_file` over one line: skip a space or tab
(advancing the raw index only — NOT the tab offset), else match a token at
the current index.  A matched token gets 1-based columns
`start = index + taboffset + 1` and `stop = end + taboffset' + 1` where the
tab offset has first been increased by `(_TAB_SIZE - 1)` per tab INSIDE the
matched value.  On no match, the located lexing error is raised.  `fuel`
only bounds the recursion; every step consumes at least one character, so
`line.length + 1` is always enough. -/
def tokenizeLineAux : Nat → List Char → Nat → Nat → Nat → List Token →
    Except PyErr (List Token × Nat × List Token)
  | 0, _, _, _, ln, ns => .ok ([], ln, ns)
  | fuel + 1, line, i, t, ln, ns =>
    match line.drop i with
    | [] => .ok ([], ln, ns)
    | c :: cs =>
      if c == ' ' || c == '\t' then
        tokenizeLineAux fuel line (i + 1) t ln ns
      else
        match matchToken (c :: cs) with
        | none =>
          .error (.syntaxError (illegalCharMsg c) ln (i + 1) (line.length + 1)
            (some (String.mk (c :: cs))))
        | some (ty, v) =>
          let t2 := t + (tabWidth - 1) * countTabs v
          let tok : Token := ⟨ln, i + t + 1, i + v.length + t2 + 1, ty, some (String.mk v)⟩
          match applyCallback tok ty v ln ns with
          | .error e => .error e
          | .ok (ln2, ns2) =>
            match tokenizeLineAux fuel line (i + v.length) t2 ln2 ns2 with
            | .error e => .error e
            | .ok (rest, ln3, ns3) => .ok (tok :: rest, ln3, ns3)

/-- The outer loop of `tokenize_file`: one line at a time, threading the
line counter and the nesting stack. -/
def tokenizeLinesAux : List (List Char) → Nat → List Token →
    Except PyErr (List Token × Nat × List Token)
  | [], ln, ns => .ok ([], ln, ns)
  | l :: rest, ln, ns =>
    match tokenizeLineAux (l.length + 1) l 0 0 ln ns with
    | .error e => .error e
    | .ok (ts, ln2, ns2) =>
      match tokenizeLinesAux rest ln2 ns2 with
      | .error e => .error e
      | .ok (ts2, ln3, ns3) => .ok (ts ++ ts2, ln3, ns3)

/-- The condition of tokenizer line 205: a synthetic NEWLINE is appended
iff the input had no lines at all (`not previous_line`) or the last line
does not end in a line terminator. -/
def needsSyntheticNewline (lines : List (List Char)) : Bool :=
  match lines.getLast? with
  | none => true
  | some l =>
    match l.getLast? with
    | none => true
    | some c => !isNewlineChar c

/-- The tokenizer's final `self._index`: the length of the last line read
(the inner loop always leaves `_index` at the line length), or 0 for empty
input. -/
def finalIdxOf (lines : List (List Char)) : Nat :=
  match lines.getLast? with
  | none => 0
  | some l => l.length

/-- `OptocadTokenizer.tokenize_file` on the text of an (already named) file
object: tokenize every line; then, if the nesting stack is nonempty, raise
the located "unclosed" error for its first (oldest) entry — the `for` loop
over `_nesting` raises on its first iteration; then append the synthetic
NEWLINE if needed (at column `_index + 1` with no tab compensation,
after which `_lineno` is incremented and `_index` reset) and the final
ENDMARKER at column 1. -/
def tokenizeCore (s : String) : Except PyErr (List Token) :=
  match tokenizeLinesAux (splitLines s.data) 1 [] with
  | .error e => .error e
  | .ok (ts, ln, ns) =>
    match ns with
    | opener :: _ => .error (unclosedErr opener)
    | [] =>
      if needsSyntheticNewline (splitLines s.data) then
        .ok (ts ++ [⟨ln, finalIdxOf (splitLines s.data) + 1,
                      finalIdxOf (splitLines s.data) + 1, .NEWLINE, none⟩,
                    ⟨ln + 1, 1, 1, .ENDMARKER, none⟩])
      else
        .ok (ts ++ [⟨ln, 1, 1, .ENDMARKER, none⟩])

/-- A Python text-file object as the tokenizer/parser see it: it may or
may not expose a `name` attribute. -/
structure PyTextIO where
  name : Option String
  content : String

/-- `io.StringIO(s)`: an in-memory text stream.  `StringIO` objects do not
have a `name` attribute. -/
def stringIOFile (s : String) : PyTextIO := ⟨none, s⟩

/-- `OptocadTokenizer.tokenize_file(fobj)`: line 110 reads `fobj.name`
before any line is read; on an object without that attribute this raises
`AttributeError` immediately. -/
def tokenize_file (fobj : PyTextIO) : Except PyErr (List Token) :=
  match fobj.name with
  | none => .error .attributeError
  | some _ => tokenizeCore fobj.content

/-- `OptocadTokenizer.tokenize(string)`: wraps the string in `StringIO`
and delegates to `tokenize_file`. -/
def tokenize (s : String) : Except PyErr (List Token) :=
  tokenize_file (stringIOFile s)

/-- Parsed values, as the Python productions build them: `action` and the
NUMBER alternative of `expr4` return plain strings (the tokenizer stores
`matches.group()` and nothing ever converts NUMBER values, so a numeric
literal is carried as its source text), and the expression productions
return `OptocadUnaryExpression` / `OptocadBinaryExpression` containers. -/
inductive OptocadValue where
  | str (s : String)
  | unary (operator : String) (argument : OptocadValue)
  | binary (operator : String) (lhs : OptocadValue) (rhs : OptocadValue)
deriving DecidableEq, Repr

/-- A Python `dict` with string keys, as an insertion-ordered association
list with unique keys. -/
abbrev PyDict := List (String × OptocadValue)

/-- `d[k] = v` on a Python dict: an existing key keeps its position and
gets the new value; a new key is appended at the end. -/
def dictInsert : PyDict → String → OptocadValue → PyDict
  | [], k, v => [(k, v)]
  | (k1, v1) :: rest, k, v =>
    if k1 = k then (k, v) :: rest else (k1, v1) :: dictInsert rest k v

/-- `{**a, **b}` on Python dicts: start from `a` and insert `b`'s entries
in order, so a key present in both gets `b`'s (the later) value. -/
def dictMerge (a b : PyDict) : PyDict :=
  b.foldl (fun d kv => dictInsert d kv.1 kv.2) a

def dictLookup : PyDict → String → Option OptocadValue
  | [], _ => none
  | (k1, v1) :: rest, k => if k1 = k then some v1 else dictLookup rest k

/-- `containers.OptocadSecondarySurfaceCommand`. -/
structure OptocadSecondarySurfaceCommand where
  args : List OptocadValue
  kwargs : PyDict
deriving DecidableEq, Repr

/-- `containers.OptocadCommand`. -/
structure OptocadCommand where
  directive : String
  args : List OptocadValue
  kwargs : PyDict
  secondary_surfaces : List OptocadSecondarySurfaceCommand
deriving DecidableEq, Repr

/-- Result of the `command` production: either a primary command or a
secondary-surface command. -/
inductive CmdResult where
  | primary (c : OptocadCommand)
  | secondary (c : OptocadSecondarySurfaceCommand)
deriving DecidableEq, Repr

/-- The parser cursor state: the (eagerly produced) token list, the
current position, how many tokens have been pulled into the buffer so far
(`len(self.tokens)` in the Python code — needed by `_diagnose_error`,
which reports at `self.tokens[-1]`), and the `optocad_script` accumulator
mutated by `script_line`. -/
structure PState where
  tokens : List Token
  pos : Nat
  buffered : Nat
  script : List OptocadCommand
deriving Repr

/-- Result of one production call: an embedded raised exception, or a
normal outcome — `none` for an ordinary match failure (the production has
already reset the position, as the Python methods do) together with the
state, whose `buffered`/`script` side effects survive failures. -/
abbrev PRes (α : Type) : Type := Except PyErr (Option α × PState)

def bufTo (n : Nat) (s : PState) : PState := { s with buffered := max s.buffered n }

/-- `peek_token`: read the token at the current position, pulling it into
the buffer. -/
def peekToken (s : PState) : Option Token × PState :=
  match s.tokens.get? s.pos with
  | some t => (some t, bufTo (s.pos + 1) s)
  | none => (none, s)

/-- `expect_token(kind)`: consume the current token iff its kind matches. -/
def expect_token (ty : TokType) (s : PState) : Option Token × PState :=
  match peekToken s with
  | (some t, s1) =>
    if t.type = ty then (some t, { s1 with pos := s1.pos + 1 }) else (none, s1)
  | (none, s1) => (none, s1)

def positive_lookahead (ty : TokType) (s : PState) : Bool × PState :=
  match peekToken s with
  | (some t, s1) => (t.type == ty, s1)
  | (none, s1) => (false, s1)

def negative_lookahead (ty : TokType) (s : PState) : Bool × PState :=
  let (b, s1) := positive_lookahead ty s
  (!b, s1)

/-- `maybe_token`: never fails — returns the consumed token, or `none`
(the `EMPTY` sentinel) without consuming. -/
def maybe_token (ty : TokType) (s : PState) : Option Token × PState :=
  match expect_token ty s with
  | (some t, s1) => (some t, s1)
  | (none, s1) => (none, { s1 with pos := s.pos })

/-- `maybe_trailing_comma`: a comma is consumed only when immediately
followed by a NEWLINE or COMMENT; otherwise `EMPTY` without consuming. -/
def maybe_trailing_comma (s : PState) : Option Token × PState :=
  let pos := s.pos
  match expect_token .COMMA s with
  | (some c, s1) =>
    let (b1, s2) := positive_lookahead .NEWLINE s1
    if b1 then (some c, s2)
    else
      let (b2, s3) := positive_lookahead .COMMENT s2
      if b2 then (some c, s3) else (none, { s3 with pos := pos })
  | (none, s1) => (none, { s1 with pos := pos })

/-- `loop_token("COMMA", True)`: greedily consume commas; fail (resetting)
unless at least one was consumed. -/
def commaLoopAux : Nat → Nat → PState → Nat × PState
  | 0, n, s => (n, s)
  | fuel + 1, n, s =>
    match expect_token .COMMA s with
    | (some _, s1) => commaLoopAux fuel (n + 1) s1
    | (none, s1) => (n, s1)

def loopCommaNonempty (s : PState) : Option Nat × PState :=
  let (n, s1) := commaLoopAux (s.tokens.length + 1) 0 s
  if 1 ≤ n then (some n, s1) else (none, { s1 with pos := s.pos })

def actionAlphabet : List Char := ['c', 'd', 'h', 'i', 'n', 'r', 's', 't', 'v']

/-- Whether Python's `int(s)` succeeds on a NUMBER token's text (the
token texts produced by the rules above are runs of digits, possibly with
a decimal point, or `inf`; `int` accepts exactly the all-digit ones). -/
def isPyInt (s : String) : Bool := !s.data.isEmpty && s.data.all Char.isDigit

def lbraceS : String := String.singleton lbraceChar

def rbraceS : String := String.singleton rbraceChar

/-- Union of the result types of the grammar productions (`script_line`'s
result object itself is unused by its caller, which only tests success, so
it is collapsed to `unit`). -/
inductive PVal where
  | script (l : List OptocadCommand)
  | unit
  | cmd (c : CmdResult)
  | params (args : List OptocadValue) (kwargs : PyDict)
  | vlist (l : List OptocadValue)
  | dict (d : PyDict)
  | val (v : OptocadValue)
  | strv (a : String)
  | kv (k : String) (v : OptocadValue)
deriving DecidableEq, Repr

def asScript : Option PVal → Option (List OptocadCommand)
  | some (.script l) => some l
  | _ => none

def asCmd : Option PVal → Option CmdResult
  | some (.cmd c) => some c
  | _ => none

def asParams : Option PVal → Option (List OptocadValue × PyDict)
  | some (.params a k) => some (a, k)
  | _ => none

def asVlist : Option PVal → Option (List OptocadValue)
  | some (.vlist l) => some l
  | _ => none

def asDict : Option PVal → Option PyDict
  | some (.dict d) => some d
  | _ => none

def asVal : Option PVal → Option OptocadValue
  | some (.val v) => some v
  | _ => none

def asStr : Option PVal → Option String
  | some (.strv a) => some a
  | _ => none

def asKv : Option PVal → Option (String × OptocadValue)
  | some (.kv k v) => some (k, v)
  | _ => none

/-- Second alternative of `script_line`: `COMMENT? NEWLINE` (a blank or
comment-only line, producing `EMPTY`). -/
def scriptLineAlt2 (pos : Nat) (s : PState) : Option PVal × PState :=
  let (_, s1) := maybe_token .COMMENT s
  match expect_token .NEWLINE s1 with
  | (some _, s2) => (some .unit, s2)
  | (none, s2) => (none, { s2 with pos := pos })

/-- `action`'s last alternative: a NAME token all of whose characters are
drawn from the motion-code alphabet (`set(NAME.value) <= set("cdhinrstv")`). -/
def actionBodyName (pos : Nat) (s : PState) : Option PVal × PState :=
  match expect_token .NAME s with
  | (some nt, s1) =>
    if (nt.value.getD "").data.all (fun c => actionAlphabet.contains c) then
      (some (.strv (nt.value.getD "")), s1)
    else (none, { s1 with pos := pos })
  | (none, s1) => (none, { s1 with pos := pos })

/-- One call into the grammar: which production to run, together with the
production-local state the original methods keep in local variables — the
saved reset position `pos` of an alternative chain, and, for the
left-recursive productions, the grow loop's start position and current
best `(result, end position)`.  Each Python parser method (and each
alternative chain within one) is one constructor. -/
inductive PCall where
  | start
  | scriptLineLoop
  | script_line
  | command
  | commandPlus (pos : Nat)
  | command_params
  | commandParamsAlt2 (pos : Nat)
  | commandParamsAlt3 (pos : Nat)
  | command_value_list
  | cvlAlt2 (pos : Nat)
  | command_key_value_list
  | ckvlGrow (startPos : Nat) (best : Option (PyDict × Nat))
  | ckvlBody (startPos : Nat) (best : Option (PyDict × Nat))
  | ckvlBodyAlt2 (pos : Nat)
  | positional_value
  | value
  | key_value
  | action
  | actionGrow (startPos : Nat) (best : Option (String × Nat))
  | actionBody (startPos : Nat) (best : Option (String × Nat))
  | actionBodyBrace (pos : Nat)
  | actionBodyBracket (pos : Nat)
  | actionBodyParen (pos : Nat)
  | expr
  | exprGrow (startPos : Nat) (best : Option (OptocadValue × Nat))
  | exprBody (startPos : Nat) (best : Option (OptocadValue × Nat))
  | exprBodyMinus (startPos : Nat) (best : Option (OptocadValue × Nat))
  | exprBodyLast (pos : Nat)
  | expr1
  | expr1Grow (startPos : Nat) (best : Option (OptocadValue × Nat))
  | expr1Body (startPos : Nat) (best : Option (OptocadValue × Nat))
  | expr1BodyDiv (startPos : Nat) (best : Option (OptocadValue × Nat))
  | expr1BodyFloor (startPos : Nat) (best : Option (OptocadValue × Nat))
  | expr1BodyLast (pos : Nat)
  | expr2
  | expr2Minus (pos : Nat)
  | expr2Last (pos : Nat)
  | expr3
  | expr3Alt2 (pos : Nat)
  | expr4
  | expr4Num (pos : Nat)
  | expr4Invalid (pos : Nat)
  | invalid_expr4

/-!
The grammar productions of `OptocadParser`, one branch of `pyRunStep` per
Python method (alternative chains within a method are split into the
`...Alt`/operator-named continuation branches, exactly as the methods'
successive `if`-blocks after `self.reset(pos)`).  The Python code relies
on the packrat memoization for termination; per spec §8 plain memoization
does not change any parse result, so it is omitted here, and the
left-recursive productions instead carry the seed-growing loop
explicitly.

Modelled from the spec: the missing `memoize.py` (`@memoize`,
`@memoize_left_rec`).  Spec §4.2: a left-recursive production first runs
its body with the nested same-position call answering "failure" (which
makes the first non-left-recursive alternative the seed), then re-runs
the body with the nested same-position call answering the best result so
far, keeping the new result only while it consumes strictly more input,
and finally returns the best result (restoring its end position).  The
`...Grow` branches below implement exactly that loop, and the `...Body`
branches are the production bodies with the leftmost recursive call
replaced by the memo-table answer `best`; the non-leftmost recursive
calls sit at strictly advanced positions (a different memo key), so they
are ordinary full calls.

`go` is the runner at one fuel level less; fuel only bounds the
production-nesting depth, and the concrete inputs in the theorems below
stay far below the `parseFuel` used.
-/
def pyRunStep (go : PCall → PState → Except PyErr (Option PVal × PState))
    (call : PCall) (s : PState) : Except PyErr (Option PVal × PState) :=
  match call with
  -- start -> script_line* ENDMARKER   (returns self.optocad_script)
  | .start =>
    let pos := s.pos
    match go .scriptLineLoop s with
    | .error e => .error e
    | .ok (_, s1) =>
      match expect_token .ENDMARKER s1 with
      | (some _, s2) => .ok (some (.script s2.script), s2)
      | (none, s2) => .ok (none, { s2 with pos := pos })
  -- loop_production("script_line", False): zero or more lines, always succeeds
  | .scriptLineLoop =>
    match go .script_line s with
    | .error e => .error e
    | .ok (some _, s1) => go .scriptLineLoop s1
    | .ok (none, s1) => .ok (some .unit, s1)
  -- script_line -> command COMMENT? NEWLINE | COMMENT? NEWLINE
  -- A secondary-surface command is appended to the previous command's
  -- secondary_surfaces; with no previous command the IndexError handler's
  -- `raise OptocadSyntaxError(...)` evaluates `self._tokenizer.lineno`,
  -- and the tokenizer only defines `_lineno`, so AttributeError is raised.
  | .script_line =>
    let pos := s.pos
    match go .command s with
    | .error e => .error e
    | .ok (r, s1) =>
      match asCmd r with
      | some cmdRes =>
        let (_, s2) := maybe_token .COMMENT s1
        match expect_token .NEWLINE s2 with
        | (some _, s3) =>
          match cmdRes with
          | .secondary ssc =>
            match s3.script.getLast? with
            | none => .error .attributeError
            | some last =>
              .ok (some .unit, { s3 with script := s3.script.dropLast ++
                [{ last with secondary_surfaces := last.secondary_surfaces ++ [ssc] }] })
          | .primary c => .ok (some .unit, { s3 with script := s3.script ++ [c] })
        | (none, s3) => .ok (scriptLineAlt2 pos { s3 with pos := pos })
      | none => .ok (scriptLineAlt2 pos { s1 with pos := pos })
  -- command -> NAME command_params | '+' command_params
  | .command =>
    let pos := s.pos
    match expect_token .NAME s with
    | (some nameTok, s1) =>
      match go .command_params s1 with
      | .error e => .error e
      | .ok (r, s2) =>
        match asParams r with
        | some (args, kwargs) =>
          .ok (some (.cmd (.primary ⟨nameTok.value.getD "", args, kwargs, []⟩)), s2)
        | none => go (.commandPlus pos) { s2 with pos := pos }
    | (none, s1) => go (.commandPlus pos) { s1 with pos := pos }
  | .commandPlus pos =>
    match expect_token .PLUS s with
    | (some _, s1) =>
      match go .command_params s1 with
      | .error e => .error e
      | .ok (r, s2) =>
        match asParams r with
        | some (args, kwargs) => .ok (some (.cmd (.secondary ⟨args, kwargs⟩)), s2)
        | none => .ok (none, { s2 with pos := pos })
    | (none, s1) => .ok (none, { s1 with pos := pos })
  -- command_params -> command_value_list ',' command_key_value_list ','?
  --                 | command_value_list ','? | command_key_value_list ','?
  | .command_params =>
    let pos := s.pos
    match go .command_value_list s with
    | .error e => .error e
    | .ok (r, s1) =>
      match asVlist r with
      | some cvl =>
        match expect_token .COMMA s1 with
        | (some _, s2) =>
          match go .command_key_value_list s2 with
          | .error e => .error e
          | .ok (r2, s3) =>
            match asDict r2 with
            | some ckv =>
              let (_, s4) := maybe_trailing_comma s3
              .ok (some (.params cvl ckv), s4)
            | none => go (.commandParamsAlt2 pos) { s3 with pos := pos }
        | (none, s2) => go (.commandParamsAlt2 pos) { s2 with pos := pos }
      | none => go (.commandParamsAlt2 pos) { s1 with pos := pos }
  | .commandParamsAlt2 pos =>
    match go .command_value_list s with
    | .error e => .error e
    | .ok (r, s1) =>
      match asVlist r with
      | some cvl =>
        let (_, s2) := maybe_trailing_comma s1
        .ok (some (.params cvl []), s2)
      | none => go (.commandParamsAlt3 pos) { s1 with pos := pos }
  | .commandParamsAlt3 pos =>
    match go .command_key_value_list s with
    | .error e => .error e
    | .ok (r, s1) =>
      match asDict r with
      | some ckv =>
        let (_, s2) := maybe_trailing_comma s1
        .ok (some (.params [] ckv), s2)
      | none => .ok (none, { s1 with pos := pos })
  -- command_value_list -> positional_value ',' command_value_list | positional_value
  | .command_value_list =>
    let pos := s.pos
    match go .positional_value s with
    | .error e => .error e
    | .ok (r, s1) =>
      match asVal r with
      | some pv =>
        match expect_token .COMMA s1 with
        | (some _, s2) =>
          match go .command_value_list s2 with
          | .error e => .error e
          | .ok (r2, s3) =>
            match asVlist r2 with
            | some rest => .ok (some (.vlist (pv :: rest)), s3)
            | none => go (.cvlAlt2 pos) { s3 with pos := pos }
        | (none, s2) => go (.cvlAlt2 pos) { s2 with pos := pos }
      | none => go (.cvlAlt2 pos) { s1 with pos := pos }
  | .cvlAlt2 pos =>
    match go .positional_value s with
    | .error e => .error e
    | .ok (r, s1) =>
      match asVal r with
      | some pv => .ok (some (.vlist [pv]), s1)
      | none => .ok (none, { s1 with pos := pos })
  -- command_key_value_list -> command_key_value_list ','+ command_key_value_list
  --                          | key_value   (left-recursive, @memoize_left_rec)
  | .command_key_value_list => go (.ckvlGrow s.pos none) s
  | .ckvlGrow startPos best =>
    match go (.ckvlBody startPos best) { s with pos := startPos } with
    | .error e => .error e
    | .ok (r, s1) =>
      match asDict r with
      | some d =>
        match best with
        | some (bd, bp) =>
          if bp < s1.pos then go (.ckvlGrow startPos (some (d, s1.pos))) s1
          else .ok (some (.dict bd), { s1 with pos := bp })
        | none => go (.ckvlGrow startPos (some (d, s1.pos))) s1
      | none =>
        match best with
        | some (bd, bp) => .ok (some (.dict bd), { s1 with pos := bp })
        | none => .ok (none, { s1 with pos := startPos })
  | .ckvlBody startPos best =>
    match best with
    | some (d1, bp) =>
      match loopCommaNonempty { s with pos := bp } with
      | (some _, s2) =>
        match go .command_key_value_list s2 with
        | .error e => .error e
        | .ok (r, s3) =>
          match asDict r with
          | some d2 => .ok (some (.dict (dictMerge d1 d2)), s3)
          | none => go (.ckvlBodyAlt2 startPos) { s3 with pos := startPos }
      | (none, s2) => go (.ckvlBodyAlt2 startPos) { s2 with pos := startPos }
    | none => go (.ckvlBodyAlt2 startPos) s
  | .ckvlBodyAlt2 pos =>
    match go .key_value s with
    | .error e => .error e
    | .ok (r, s1) =>
      match asKv r with
      | some (k, v) => .ok (some (.dict [(k, v)]), s1)
      | none => .ok (none, { s1 with pos := pos })
  -- positional_value -> value !'='
  | .positional_value =>
    let pos := s.pos
    match go .value s with
    | .error e => .error e
    | .ok (r, s1) =>
      match asVal r with
      | some v =>
        let (b, s2) := negative_lookahead .EQUALS s1
        if b then .ok (some (.val v), s2) else .ok (none, { s2 with pos := pos })
      | none => .ok (none, { s1 with pos := pos })
  -- value -> action | expr
  | .value =>
    let pos := s.pos
    match go .action s with
    | .error e => .error e
    | .ok (r, s1) =>
      match asStr r with
      | some a => .ok (some (.val (.str a)), s1)
      | none =>
        match go .expr { s1 with pos := pos } with
        | .error e => .error e
        | .ok (r2, s2) =>
          match asVal r2 with
          | some v => .ok (some (.val v), s2)
          | none => .ok (none, { s2 with pos := pos })
  -- key_value -> NAME '=' value, plus the explicit error alternative:
  -- NAME '=' followed by no valid value executes
  -- `raise OptocadSyntaxError("missing value", (... self._tokenizer.lineno ...))`
  -- whose argument evaluation reads the nonexistent `lineno` attribute off
  -- the tokenizer (it only defines `_lineno`), raising AttributeError.
  | .key_value =>
    let pos := s.pos
    match expect_token .NAME s with
    | (some nameTok, s1) =>
      match expect_token .EQUALS s1 with
      | (some _, s2) =>
        match go .value s2 with
        | .error e => .error e
        | .ok (r, s3) =>
          match asVal r with
          | some v => .ok (some (.kv (nameTok.value.getD "") v), s3)
          | none => .error .attributeError
      | (none, s2) => .ok (none, { s2 with pos := pos })
    | (none, s1) => .ok (none, { s1 with pos := pos })
  -- action -> action action | '{' action '}' NUMBER? | '[' action ']'
  --          | '(' action ')' | LETTERS  (left-recursive, @memoize_left_rec)
  | .action => go (.actionGrow s.pos none) s
  | .actionGrow startPos best =>
    match go (.actionBody startPos best) { s with pos := startPos } with
    | .error e => .error e
    | .ok (r, s1) =>
      match asStr r with
      | some a =>
        match best with
        | some (ba, bp) =>
          if bp < s1.pos then go (.actionGrow startPos (some (a, s1.pos))) s1
          else .ok (some (.strv ba), { s1 with pos := bp })
        | none => go (.actionGrow startPos (some (a, s1.pos))) s1
      | none =>
        match best with
        | some (ba, bp) => .ok (some (.strv ba), { s1 with pos := bp })
        | none => .ok (none, { s1 with pos := startPos })
  | .actionBody startPos best =>
    match best with
    | some (a1, bp) =>
      match go .action { s with pos := bp } with
      | .error e => .error e
      | .ok (r, s2) =>
        match asStr r with
        | some a2 => .ok (some (.strv (a1 ++ a2)), s2)
        | none => go (.actionBodyBrace startPos) { s2 with pos := startPos }
    | none => go (.actionBodyBrace startPos) s
  -- '{' action '}' NUMBER?: when the optional NUMBER is present and
  -- int(NUMBER.value) succeeds, the `else` branch evaluates
  -- `"{" + action + "}" + NUMBER` with NUMBER an int -> TypeError; when
  -- int raises ValueError the alternative falls through (`pass`).
  | .actionBodyBrace pos =>
    match expect_token .LBRACE s with
    | (some _, s1) =>
      match go .action s1 with
      | .error e => .error e
      | .ok (r, s2) =>
        match asStr r with
        | some a =>
          match expect_token .RBRACE s2 with
          | (some _, s3) =>
            let (numTok, s4) := maybe_token .NUMBER s3
            match numTok with
            | some nt =>
              if isPyInt (nt.value.getD "") then .error .typeError
              else go (.actionBodyBracket pos) { s4 with pos := pos }
            | none => .ok (some (.strv (lbraceS ++ a ++ rbraceS)), s4)
          | (none, s3) => go (.actionBodyBracket pos) { s3 with pos := pos }
        | none => go (.actionBodyBracket pos) { s2 with pos := pos }
    | (none, s1) => go (.actionBodyBracket pos) { s1 with pos := pos }
  | .actionBodyBracket pos =>
    match expect_token .LBRACKET s with
    | (some _, s1) =>
      match go .action s1 with
      | .error e => .error e
      | .ok (r, s2) =>
        match asStr r with
        | some a =>
          match expect_token .RBRACKET s2 with
          | (some _, s3) => .ok (some (.strv ("[" ++ a ++ "]")), s3)
          | (none, s3) => go (.actionBodyParen pos) { s3 with pos := pos }
        | none => go (.actionBodyParen pos) { s2 with pos := pos }
    | (none, s1) => go (.actionBodyParen pos) { s1 with pos := pos }
  | .actionBodyParen pos =>
    match expect_token .LPAREN s with
    | (some _, s1) =>
      match go .action s1 with
      | .error e => .error e
      | .ok (r, s2) =>
        match asStr r with
        | some a =>
          match expect_token .RPAREN s2 with
          | (some _, s3) => .ok (some (.strv ("(" ++ a ++ ")")), s3)
          | (none, s3) => .ok (actionBodyName pos { s3 with pos := pos })
        | none => .ok (actionBodyName pos { s2 with pos := pos })
    | (none, s1) => .ok (actionBodyName pos { s1 with pos := pos })
  -- expr -> expr ('+'|'-') expr1 | expr1   (left-recursive)
  | .expr => go (.exprGrow s.pos none) s
  | .exprGrow startPos best =>
    match go (.exprBody startPos best) { s with pos := startPos } with
    | .error e => .error e
    | .ok (r, s1) =>
      match asVal r with
      | some v =>
        match best with
        | some (bv, bp) =>
          if bp < s1.pos then go (.exprGrow startPos (some (v, s1.pos))) s1
          else .ok (some (.val bv), { s1 with pos := bp })
        | none => go (.exprGrow startPos (some (v, s1.pos))) s1
      | none =>
        match best with
        | some (bv, bp) => .ok (some (.val bv), { s1 with pos := bp })
        | none => .ok (none, { s1 with pos := startPos })
  | .exprBody startPos best =>
    match best with
    | some (lhs, bp) =>
      match expect_token .PLUS { s with pos := bp } with
      | (some opTok, s1) =>
        match go .expr1 s1 with
        | .error e => .error e
        | .ok (r, s2) =>
          match asVal r with
          | some rhs =>
            .ok (some (.val (.binary (opTok.value.getD "") lhs rhs)), s2)
          | none => go (.exprBodyMinus startPos best) { s2 with pos := startPos }
      | (none, s1) => go (.exprBodyMinus startPos best) { s1 with pos := startPos }
    | none => go (.exprBodyLast startPos) s
  | .exprBodyMinus startPos best =>
    match best with
    | some (lhs, bp) =>
      match expect_token .MINUS { s with pos := bp } with
      | (some opTok, s1) =>
        match go .expr1 s1 with
        | .error e => .error e
        | .ok (r, s2) =>
          match asVal r with
          | some rhs =>
            .ok (some (.val (.binary (opTok.value.getD "") lhs rhs)), s2)
          | none => go (.exprBodyLast startPos) { s2 with pos := startPos }
      | (none, s1) => go (.exprBodyLast startPos) { s1 with pos := startPos }
    | none => go (.exprBodyLast startPos) s
  | .exprBodyLast pos =>
    match go .expr1 s with
    | .error e => .error e
    | .ok (r, s1) =>
      match asVal r with
      | some v => .ok (some (.val v), s1)
      | none => .ok (none, { s1 with pos := pos })
  -- expr1 -> expr1 ('*'|'/'|'//') expr2 | expr2   (left-recursive)
  | .expr1 => go (.expr1Grow s.pos none) s
  | .expr1Grow startPos best =>
    match go (.expr1Body startPos best) { s with pos := startPos } with
    | .error e => .error e
    | .ok (r, s1) =>
      match asVal r with
      | some v =>
        match best with
        | some (bv, bp) =>
          if bp < s1.pos then go (.expr1Grow startPos (some (v, s1.pos))) s1
          else .ok (some (.val bv), { s1 with pos := bp })
        | none => go (.expr1Grow startPos (some (v, s1.pos))) s1
      | none =>
        match best with
        | some (bv, bp) => .ok (some (.val bv), { s1 with pos := bp })
        | none => .ok (none, { s1 with pos := startPos })
  | .expr1Body startPos best =>
    match best with
    | some (lhs, bp) =>
      match expect_token .TIMES { s with pos := bp } with
      | (some opTok, s1) =>
        match go .expr2 s1 with
        | .error e => .error e
        | .ok (r, s2) =>
          match asVal r with
          | some rhs =>
            .ok (some (.val (.binary (opTok.value.getD "") lhs rhs)), s2)
          | none => go (.expr1BodyDiv startPos best) { s2 with pos := startPos }
      | (none, s1) => go (.expr1BodyDiv startPos best) { s1 with pos := startPos }
    | none => go (.expr1BodyLast startPos) s
  | .expr1BodyDiv startPos best =>
    match best with
    | some (lhs, bp) =>
      match expect_token .DIVIDE { s with pos := bp } with
      | (some opTok, s1) =>
        match go .expr2 s1 with
        | .error e => .error e
        | .ok (r, s2) =>
          match asVal r with
          | some rhs =>
            .ok (some (.val (.binary (opTok.value.getD "") lhs rhs)), s2)
          | none => go (.expr1BodyFloor startPos best) { s2 with pos := startPos }
      | (none, s1) => go (.expr1BodyFloor startPos best) { s1 with pos := startPos }
    | none => go (.expr1BodyLast startPos) s
  | .expr1BodyFloor startPos best =>
    match best with
    | some (lhs, bp) =>
      match expect_token .FLOORDIVIDE { s with pos := bp } with
      | (some opTok, s1) =>
        match go .expr2 s1 with
        | .error e => .error e
        | .ok (r, s2) =>
          match asVal r with
          | some rhs =>
            .ok (some (.val (.binary (opTok.value.getD "") lhs rhs)), s2)
          | none => go (.expr1BodyLast startPos) { s2 with pos := startPos }
      | (none, s1) => go (.expr1BodyLast startPos) { s1 with pos := startPos }
    | none => go (.expr1BodyLast startPos) s
  | .expr1BodyLast pos =>
    match go .expr2 s with
    | .error e => .error e
    | .ok (r, s1) =>
      match asVal r with
      | some v => .ok (some (.val v), s1)
      | none => .ok (none, { s1 with pos := pos })
  -- expr2 -> ('+'|'-') expr2 | expr3   (unary operators)
  | .expr2 =>
    let pos := s.pos
    match expect_token .PLUS s with
    | (some opTok, s1) =>
      match go .expr2 s1 with
      | .error e => .error e
      | .ok (r, s2) =>
        match asVal r with
        | some v => .ok (some (.val (.unary (opTok.value.getD "") v)), s2)
        | none => go (.expr2Minus pos) { s2 with pos := pos }
    | (none, s1) => go (.expr2Minus pos) { s1 with pos := pos }
  | .expr2Minus pos =>
    match expect_token .MINUS s with
    | (some opTok, s1) =>
      match go .expr2 s1 with
      | .error e => .error e
      | .ok (r, s2) =>
        match asVal r with
        | some v => .ok (some (.val (.unary (opTok.value.getD "") v)), s2)
        | none => go (.expr2Last pos) { s2 with pos := pos }
    | (none, s1) => go (.expr2Last pos) { s1 with pos := pos }
  | .expr2Last pos =>
    match go .expr3 s with
    | .error e => .error e
    | .ok (r, s1) =>
      match asVal r with
      | some v => .ok (some (.val v), s1)
      | none => .ok (none, { s1 with pos := pos })
  -- expr3 -> expr4 '**' expr2 | expr4   (right-associative power)
  | .expr3 =>
    let pos := s.pos
    match go .expr4 s with
    | .error e => .error e
    | .ok (r, s1) =>
      match asVal r with
      | some e4 =>
        match expect_token .POWER s1 with
        | (some powTok, s2) =>
          match go .expr2 s2 with
          | .error e => .error e
          | .ok (r2, s3) =>
            match asVal r2 with
            | some e2 =>
              .ok (some (.val (.binary (powTok.value.getD "") e4 e2)), s3)
            | none => go (.expr3Alt2 pos) { s3 with pos := pos }
        | (none, s2) => go (.expr3Alt2 pos) { s2 with pos := pos }
      | none => go (.expr3Alt2 pos) { s1 with pos := pos }
  | .expr3Alt2 pos =>
    match go .expr4 s with
    | .error e => .error e
    | .ok (r, s1) =>
      match asVal r with
      | some v => .ok (some (.val v), s1)
      | none => .ok (none, { s1 with pos := pos })
  -- expr4 -> '(' expr ')' | NUMBER !NUMBER | invalid_expr4.  Note that —
  -- its own docstring notwithstanding — this production has NO bare-NAME
  -- alternative in the code.
  | .expr4 =>
    let pos := s.pos
    match expect_token .LPAREN s with
    | (some _, s1) =>
      match go .expr s1 with
      | .error e => .error e
      | .ok (r, s2) =>
        match asVal r with
        | some e =>
          match expect_token .RPAREN s2 with
          | (some _, s3) => .ok (some (.val e), s3)
          | (none, s3) => go (.expr4Num pos) { s3 with pos := pos }
        | none => go (.expr4Num pos) { s2 with pos := pos }
    | (none, s1) => go (.expr4Num pos) { s1 with pos := pos }
  | .expr4Num pos =>
    match expect_token .NUMBER s with
    | (some nt, s1) =>
      let (b, s2) := negative_lookahead .NUMBER s1
      if b then .ok (some (.val (.str (nt.value.getD ""))), s2)
      else go (.expr4Invalid pos) { s2 with pos := pos }
    | (none, s1) => go (.expr4Invalid pos) { s1 with pos := pos }
  -- the invalid_expr4 check at the end of expr4 (whose successful return
  -- would be raised; in fact invalid_expr4 itself already raises, so the
  -- success branch is dead and the production just fails)
  | .expr4Invalid pos =>
    match go .invalid_expr4 s with
    | .error e => .error e
    | .ok (_, s1) => .ok (none, { s1 with pos := pos })
  -- invalid_expr4: two NUMBER tokens in a row.  Both token values are
  -- strings (the tokenizer stores matches.group() and never converts
  -- NUMBER values to int), so the isinstance(..., int) leading-zeros
  -- branch is never taken, and the construction
  -- OptocadSyntaxError("invalid number syntax", self.script, NUMBER2)
  -- passes 3 positional arguments to an __init__ requiring 5 -> TypeError.
  | .invalid_expr4 =>
    let pos := s.pos
    match expect_token .NUMBER s with
    | (some _, s1) =>
      match expect_token .NUMBER s1 with
      | (some _, _) => .error .typeError
      | (none, s2) => .ok (none, { s2 with pos := pos })
    | (none, s1) => .ok (none, { s1 with pos := pos })

/-- The fueled runner of the grammar: `fuel` bounds the
production-nesting depth, and every nested production call runs at one
fuel level less. -/
def pyRun (fuel : Nat) : PCall → PState → Except PyErr (Option PVal × PState) :=
  @Nat.rec (fun _ => PCall → PState → Except PyErr (Option PVal × PState))
    (fun _ s => .ok (none, s)) (fun _ ih => pyRunStep ih) fuel


/-- Fuel for the grammar; the inputs evaluated in the theorems below need
a production-nesting depth far below this. -/
def parseFuel : Nat := 100

/-- The parsing pipeline of `OptocadParser.parse_file` once the file
object's `name` has been read: tokenize (the Python parser pulls tokens
lazily; all inputs parsed in the theorems below tokenize without error,
where eager and lazy pulling agree), run `start`, and on failure raise
`_diagnose_error`'s generic located "syntax error" at the last buffered
token (`self.tokens[-1]`, or the first peeked token when nothing was
buffered). -/
def parseCore (s : String) : Except PyErr (List OptocadCommand) :=
  match tokenizeCore s with
  | .error e => .error e
  | .ok toks =>
    match pyRun parseFuel .start ⟨toks, 0, 0, []⟩ with
    | .error e => .error e
    | .ok (r, s1) =>
      match asScript r with
      | some script => .ok script
      | none =>
        let idx := if s1.buffered = 0 then 0 else s1.buffered - 1
        match toks.get? idx with
        | some t =>
          .error (.syntaxError "syntax error" t.lineno t.start_index t.stop_index t.value)
        | none => .error .attributeError

/-- `OptocadParser.parse_file(fobj)`: line 83 reads `fobj.name` before the
tokenizer is even constructed; on an object without that attribute this
raises `AttributeError` immediately. -/
def parse_file (fobj : PyTextIO) : Except PyErr (List OptocadCommand) :=
  match fobj.name with
  | none => .error .attributeError
  | some _ => parseCore fobj.content

/-- `OptocadParser.parse(string)`: wraps the string in `StringIO` and
delegates to `parse_file`. -/
def parse (s : String) : Except PyErr (List OptocadCommand) :=
  parse_file (stringIOFile s)

/-!
Statement helpers: observations about token lists used by the theorems
below (a synthetic NEWLINE is recognisable by its missing value; bracket
well-formedness is a stack run over the token kinds).
-/

/-- The synthetic end-of-input NEWLINE is the only NEWLINE emitted without
a matched value. -/
def isSyntheticNewline (t : Token) : Bool := t.type == .NEWLINE && t.value.isNone

/-- The synthetic-NEWLINE condition on a whole input string. -/
def needsSyntheticNL (s : String) : Bool := needsSyntheticNewline (splitLines s.data)

/-- One step of the bracket-discipline stack machine over token kinds:
openers push, closers pop a matching opener (anything else is `none`),
other kinds are ignored. -/
def stepBr (st : List TokType) (ty : TokType) : Option (List TokType) :=
  match ty with
  | .LBRACKET => some (.LBRACKET :: st)
  | .LPAREN => some (.LPAREN :: st)
  | .RBRACKET =>
    match st with
    | .LBRACKET :: r => some r
    | _ => none
  | .RPAREN =>
    match st with
    | .LPAREN :: r => some r
    | _ => none
  | _ => some st

def runBr : List TokType → List TokType → Option (List TokType)
  | st, [] => some st
  | st, ty :: rest =>
    match stepBr st ty with
    | some st2 => runBr st2 rest
    | none => none

/-- The nesting stack seen as a stack of token kinds (the Python list is
appended at the end and popped from the end, so the top is the last
element). -/
def stackOf (ns : List Token) : List TokType := (ns.map Token.type).reverse

/-- Invariant of the tokenizer's nesting stack: it only ever holds the
opener tokens `[` and `(`. -/
def nsOK (ns : List Token) : Prop :=
  ∀ tok ∈ ns, (tok.type = TokType.LBRACKET ∧ tok.value = some "[")
    ∨ (tok.type = TokType.LPAREN ∧ tok.value = some "(")

theorem dictLookup_dictInsert (d : PyDict) (k : String) (v : OptocadValue) :
    dictLookup (dictInsert d k v) k = some v := by
  induction d with
  | nil => simp [dictInsert, dictLookup]
  | cons p rest ih =>
    obtain ⟨k1, v1⟩ := p
    by_cases hk : k1 = k
    · simp [dictInsert, hk, dictLookup]
    · simp [dictInsert, hk, dictLookup, ih]

theorem runBr_append (st : List TokType) (xs ys : List TokType) :
    runBr st (xs ++ ys) =
      match runBr st xs with
      | some st2 => runBr st2 ys
      | none => none := by
  induction xs generalizing st with
  | nil => simp [runBr]
  | cons ty rest ih =>
    simp only [List.cons_append, runBr]
    cases stepBr st ty with
    | none => rfl
    | some st2 => exact ih st2

theorem getLast?_decomp {α : Type} (l : List α) (a : α) (h : l.getLast? = some a) :
    l = l.dropLast ++ [a] :=
  (List.dropLast_append_getLast? a h).symm

theorem matchLITERAL_spec (cs : List Char) (ty : TokType) (v : List Char)
    (h : matchLITERAL cs = some (ty, v)) :
    ty ≠ TokType.ENDMARKER
    ∧ (ty = TokType.LBRACKET → v = ['['])
    ∧ (ty = TokType.LPAREN → v = ['(']) := by
  unfold matchLITERAL at h
  split at h <;> (try split at h) <;> (try split at h) <;>
    simp only [Option.some.injEq, Prod.mk.injEq, reduceCtorEq] at h <;>
    obtain ⟨rfl, rfl⟩ := h <;>
    exact ⟨by simp, by simp, by simp⟩

theorem matchToken_spec (cs : List Char) (ty : TokType) (v : List Char)
    (h : matchToken cs = some (ty, v)) :
    ty ≠ TokType.ENDMARKER
    ∧ (ty = TokType.LBRACKET → v = ['['])
    ∧ (ty = TokType.LPAREN → v = ['(']) := by
  unfold matchToken at h
  split at h
  · simp only [Option.some.injEq, Prod.mk.injEq] at h
    obtain ⟨rfl, rfl⟩ := h
    exact ⟨by simp, by simp, by simp⟩
  split at h
  · simp only [Option.some.injEq, Prod.mk.injEq] at h
    obtain ⟨rfl, rfl⟩ := h
    exact ⟨by simp, by simp, by simp⟩
  split at h
  · simp only [Option.some.injEq, Prod.mk.injEq] at h
    obtain ⟨rfl, rfl⟩ := h
    exact ⟨by simp, by simp, by simp⟩
  split at h
  · simp only [Option.some.injEq, Prod.mk.injEq] at h
    obtain ⟨rfl, rfl⟩ := h
    exact ⟨by simp, by simp, by simp⟩
  split at h
  · simp only [Option.some.injEq, Prod.mk.injEq] at h
    obtain ⟨rfl, rfl⟩ := h
    exact ⟨by simp, by simp, by simp⟩
  exact matchLITERAL_spec cs ty v h

theorem applyCallback_inv (tok : Token) (ty : TokType) (v : List Char) (ln : Nat)
    (ns : List Token) (ln2 : Nat) (ns2 : List Token)
    (hns : nsOK ns) (hty : tok.type = ty)
    (hlb : ty = TokType.LBRACKET → tok.value = some "[")
    (hlp : ty = TokType.LPAREN → tok.value = some "(")
    (h : applyCallback tok ty v ln ns = .ok (ln2, ns2)) :
    nsOK ns2 ∧ stepBr (stackOf ns) ty = some (stackOf ns2) := by
  cases ty <;>
    simp only [applyCallback, Except.ok.injEq, Prod.mk.injEq] at h
  case LBRACKET =>
    obtain ⟨rfl, rfl⟩ := h
    constructor
    · intro x hx
      rcases List.mem_append.mp hx with hx1 | hx2
      · exact hns x hx1
      · rw [List.mem_singleton] at hx2
        subst hx2
        exact Or.inl ⟨hty, hlb rfl⟩
    · simp [stackOf, stepBr, hty]
  case LPAREN =>
    obtain ⟨rfl, rfl⟩ := h
    constructor
    · intro x hx
      rcases List.mem_append.mp hx with hx1 | hx2
      · exact hns x hx1
      · rw [List.mem_singleton] at hx2
        subst hx2
        exact Or.inr ⟨hty, hlp rfl⟩
    · simp [stackOf, stepBr, hty]
  case RBRACKET =>
    split at h
    case h_1 opener hlast =>
      split at h
      case isTrue hv =>
        obtain ⟨rfl, rfl⟩ := h
        have hdec := getLast?_decomp ns opener hlast
        have hmem : opener ∈ ns := by
          rw [hdec]; exact List.mem_append_right _ (List.mem_singleton.mpr rfl)
        have hop : opener.type = TokType.LBRACKET := by
          rcases hns opener hmem with ⟨h1, _⟩ | ⟨_, h2⟩
          · exact h1
          · rw [h2] at hv; simp at hv
        constructor
        · intro x hx
          exact hns x (List.mem_of_mem_dropLast hx)
        · have hst : stackOf ns = TokType.LBRACKET :: stackOf ns.dropLast := by
            conv_lhs => rw [hdec]
            simp [stackOf, List.map_append, hop]
          rw [hst]
          rfl
      case isFalse => exact absurd h (by simp)
    case h_2 => exact absurd h (by simp)
  case RPAREN =>
    split at h
    case h_1 opener hlast =>
      split at h
      case isTrue hv =>
        obtain ⟨rfl, rfl⟩ := h
        have hdec := getLast?_decomp ns opener hlast
        have hmem : opener ∈ ns := by
          rw [hdec]; exact List.mem_append_right _ (List.mem_singleton.mpr rfl)
        have hop : opener.type = TokType.LPAREN := by
          rcases hns opener hmem with ⟨_, h2⟩ | ⟨h1, _⟩
          · rw [h2] at hv; simp at hv
          · exact h1
        constructor
        · intro x hx
          exact hns x (List.mem_of_mem_dropLast hx)
        · have hst : stackOf ns = TokType.LPAREN :: stackOf ns.dropLast := by
            conv_lhs => rw [hdec]
            simp [stackOf, List.map_append, hop]
          rw [hst]
          rfl
      case isFalse => exact absurd h (by simp)
    case h_2 => exact absurd h (by simp)
  all_goals
    obtain ⟨rfl, rfl⟩ := h
    exact ⟨hns, rfl⟩

/-- Facts maintained by the tokenizer's inner (per-line) loop: every
emitted token carries a matched value, is not an ENDMARKER, and has a
1-based start column; the nesting stack stays well-formed; and the emitted
token kinds drive the bracket stack machine from the entry stack to the
exit stack. -/
theorem tokLine_inv (fuel : Nat) :
    ∀ (line : List Char) (i t ln : Nat) (ns : List Token)
      (out : List Token) (ln2 : Nat) (ns2 : List Token),
    nsOK ns →
    tokenizeLineAux fuel line i t ln ns = .ok (out, ln2, ns2) →
    (∀ tok ∈ out, tok.value.isSome ∧ tok.type ≠ TokType.ENDMARKER
      ∧ 1 ≤ tok.start_index)
    ∧ nsOK ns2
    ∧ runBr (stackOf ns) (out.map Token.type) = some (stackOf ns2) := by
  induction fuel with
  | zero =>
    intro line i t ln ns out ln2 ns2 hns h
    simp only [tokenizeLineAux, Except.ok.injEq, Prod.mk.injEq] at h
    obtain ⟨rfl, rfl, rfl⟩ := h
    exact ⟨by simp, hns, rfl⟩
  | succ fuel ih =>
    intro line i t ln ns out ln2 ns2 hns h
    unfold tokenizeLineAux at h
    split at h
    · simp only [Except.ok.injEq, Prod.mk.injEq] at h
      obtain ⟨rfl, rfl, rfl⟩ := h
      exact ⟨by simp, hns, rfl⟩
    next c cs hdrop =>
      split at h
      · exact ih line (i + 1) t ln ns out ln2 ns2 hns h
      · simp only [] at h
        split at h
        · exact absurd h (by simp)
        next ty v hmt =>
          split at h
          · exact absurd h (by simp)
          next lnA nsA hac =>
            split at h
            · exact absurd h (by simp)
            next rest lnB nsB hrec =>
              simp only [Except.ok.injEq, Prod.mk.injEq] at h
              obtain ⟨rfl, rfl, rfl⟩ := h
              have spec := matchToken_spec (c :: cs) ty v hmt
              have hcb := applyCallback_inv
                ⟨ln, i + t + 1, i + v.length + (t + (tabWidth - 1) * countTabs v) + 1,
                  ty, some (String.mk v)⟩ ty v ln ns lnA nsA hns rfl
                (fun hty => by rw [spec.2.1 hty])
                (fun hty => by rw [spec.2.2 hty]) hac
              obtain ⟨hnsA, hstep⟩ := hcb
              obtain ⟨hrest, hnsB, hrun⟩ :=
                ih line (i + v.length) (t + (tabWidth - 1) * countTabs v)
                  lnA nsA rest lnB nsB hnsA hrec
              refine ⟨?_, hnsB, ?_⟩
              · intro tok htok
                rcases List.mem_cons.mp htok with rfl | hmem
                · exact ⟨by simp, spec.1, Nat.le_add_left 1 (i + t)⟩
                · exact hrest tok hmem
              · simp only [List.map_cons, runBr, hstep]
                exact hrun

/-- Lifting of `tokLine_inv` over the whole line list. -/
theorem tokLines_inv (lines : List (List Char)) :
    ∀ (ln : Nat) (ns : List Token) (out : List Token) (ln2 : Nat)
      (ns2 : List Token),
    nsOK ns →
    tokenizeLinesAux lines ln ns = .ok (out, ln2, ns2) →
    (∀ tok ∈ out, tok.value.isSome ∧ tok.type ≠ TokType.ENDMARKER
      ∧ 1 ≤ tok.start_index)
    ∧ nsOK ns2
    ∧ runBr (stackOf ns) (out.map Token.type) = some (stackOf ns2) := by
  induction lines with
  | nil =>
    intro ln ns out ln2 ns2 hns h
    simp only [tokenizeLinesAux, Except.ok.injEq, Prod.mk.injEq] at h
    obtain ⟨rfl, rfl, rfl⟩ := h
    exact ⟨by simp, hns, rfl⟩
  | cons l rest ih =>
    intro ln ns out ln2 ns2 hns h
    unfold tokenizeLinesAux at h
    split at h
    · exact absurd h (by simp)
    next ts lnA nsA hline =>
      split at h
      · exact absurd h (by simp)
      next ts2 lnB nsB hrest =>
        simp only [Except.ok.injEq, Prod.mk.injEq] at h
        obtain ⟨rfl, rfl, rfl⟩ := h
        obtain ⟨hts, hnsA, hrun1⟩ :=
          tokLine_inv (l.length + 1) l 0 0 ln ns ts lnA nsA hns hline
        obtain ⟨hts2, hnsB, hrun2⟩ := ih lnA nsA ts2 lnB nsB hnsA hrest
        refine ⟨?_, hnsB, ?_⟩
        · rw [List.forall_mem_append]
          exact ⟨hts, hts2⟩
        · rw [List.map_append, runBr_append, hrun1]
          exact hrun2

/-- Shape of every successful tokenization: a body of matched tokens
(each with a value, none an ENDMARKER, all with 1-based columns, and with
bracket-balanced kinds), followed by an optional synthetic NEWLINE and
the final ENDMARKER. -/
theorem tokenizeCore_ok_shape (s : String) (toks : List Token)
    (h : tokenizeCore s = .ok toks) :
    ∃ body ln idx,
      (∀ tok ∈ body, tok.value.isSome ∧ tok.type ≠ TokType.ENDMARKER
        ∧ 1 ≤ tok.start_index)
      ∧ runBr [] (body.map Token.type) = some []
      ∧ ((needsSyntheticNL s = true
          ∧ toks = body ++ [⟨ln, idx + 1, idx + 1, TokType.NEWLINE, none⟩,
                            ⟨ln + 1, 1, 1, TokType.ENDMARKER, none⟩])
        ∨ (needsSyntheticNL s = false
          ∧ toks = body ++ [⟨ln, 1, 1, TokType.ENDMARKER, none⟩])) := by
  unfold tokenizeCore at h
  split at h
  · exact absurd h (by simp)
  next ts ln ns hlines =>
    split at h
    · exact absurd h (by simp)
    · obtain ⟨hts, _, hrun⟩ := tokLines_inv (splitLines s.data) 1 [] ts ln []
        (by intro tok htok; simp at htok) hlines
      split at h
      next hneed =>
        simp only [Except.ok.injEq] at h
        subst h
        exact ⟨ts, ln, finalIdxOf (splitLines s.data), hts, hrun, Or.inl ⟨hneed, rfl⟩⟩
      next hneed =>
        simp only [Except.ok.injEq] at h
        subst h
        exact ⟨ts, ln, 0, hts, hrun, Or.inr ⟨by simpa using hneed, rfl⟩⟩

/-!
The claims.
-/

/-- C1: for every input string, `OptocadParser.parse` raises
`AttributeError` before any token is consumed: it wraps the string in an
`io.StringIO`, and `parse_file` immediately reads `fobj.name`, an
attribute `StringIO` objects do not have; `OptocadTokenizer.tokenize` /
`tokenize_file` read the same attribute, so the string entry points never
reach the grammar. -/
theorem optoifocad_C1 (s : String) :
    parse s = .error .attributeError ∧ tokenize s = .error .attributeError :=
  ⟨rfl, rfl⟩

set_option maxRecDepth 8000 in
/-- C2: on `"m1 crv\n"` the parse pipeline indeed returns one Command
whose single positional value is the action string `"crv"`; but on
`"m1 crx\n"` the parse does NOT succeed with `crx` as a bare NAME operand:
`expr4` has no bare-NAME alternative (contradicting its own docstring,
which says names are allowed there), so the whole parse fails with the
generic located "syntax error". -/
theorem optoifocad_C2 :
    parseCore "m1 crv\n" =
      .ok [⟨"m1", [.str "crv"], [], []⟩]
    ∧ parseCore "m1 crx\n" =
      .error (.syntaxError "syntax error" 1 7 8 (some "\n")) :=
  ⟨rfl, rfl⟩

set_option maxRecDepth 8000 in
/-- C3: `"m1 1\n+ 2\n"` parses to exactly one Command (directive `m1`,
single positional value — carried as the literal's source text `"1"`)
whose `secondary_surfaces` is exactly the one SecondarySurfaceCommand with
args `["2"]`: the `+`-prefixed line's parameters are appended to the most
recently completed Command, not to the Script. -/
theorem optoifocad_C3 :
    parseCore "m1 1\n+ 2\n" =
      .ok [⟨"m1", [.str "1"], [], [⟨[.str "2"], []⟩]⟩] :=
  rfl

set_option maxRecDepth 8000 in
/-- C4: on `"+ 1\n"` (a `+` line with no preceding command) the parse
pipeline raises `AttributeError`, not the located
"secondary surface missing primary surface" syntax error: the `IndexError`
handler's `raise OptocadSyntaxError(...)` first evaluates
`self._tokenizer.lineno`, an attribute the tokenizer does not have (it
only defines `_lineno`); the `OptocadSyntaxError` construction would also
have passed a tuple where 5 positional arguments are required. -/
theorem optoifocad_C4 :
    parseCore "+ 1\n" = .error .attributeError :=
  rfl

set_option maxRecDepth 8000 in
/-- C5: on `"m1 x=\n"` the parse pipeline raises `AttributeError`, not the
located "missing value" syntax error: `key_value`'s explicit
`raise OptocadSyntaxError("missing value", (... self._tokenizer.lineno ...))`
evaluates `self._tokenizer.lineno` first, and the tokenizer only defines
`_lineno`. -/
theorem optoifocad_C5 :
    parseCore "m1 x=\n" = .error .attributeError :=
  rfl

set_option maxRecDepth 8000 in
/-- C6: `"m1 x=1, y=2\n"` parses to one Command with `args = []` and
`kwargs = [("x", "1"), ("y", "2")]` in that insertion order; and merging
keyword sub-lists overwrites a duplicated key with the later value (one
`dictInsert` step per entry of the right-hand dict, exactly as Python's
`{**left, **right}`). -/
theorem optoifocad_C6 :
    parseCore "m1 x=1, y=2\n" =
      .ok [⟨"m1", [], [("x", .str "1"), ("y", .str "2")], []⟩]
    ∧ ∀ (d : PyDict) (k : String) (v : OptocadValue),
        dictLookup (dictInsert d k v) k = some v :=
  ⟨rfl, dictLookup_dictInsert⟩

set_option maxRecDepth 8000 in
/-- C7: `"m1 01\n"` does lex into two adjacent NUMBER tokens (`0` and
`1`), but the parse raises `TypeError`, not a located leading-zero error:
the tokenizer never converts NUMBER values to `int`, so
`invalid_expr4`'s `isinstance(..., int)` leading-zeros branch is
unreachable, and the "invalid number syntax" `OptocadSyntaxError`
construction passes 3 positional arguments where 5 are required. -/
theorem optoifocad_C7 :
    tokenizeCore "m1 01\n" =
      .ok [⟨1, 1, 3, TokType.NAME, some "m1"⟩,
           ⟨1, 4, 5, TokType.NUMBER, some "0"⟩,
           ⟨1, 5, 6, TokType.NUMBER, some "1"⟩,
           ⟨1, 6, 7, TokType.NEWLINE, some "\n"⟩,
           ⟨2, 1, 1, TokType.ENDMARKER, none⟩]
    ∧ parseCore "m1 01\n" = .error .typeError :=
  ⟨rfl, rfl⟩

/-- C8: every successful tokenization emits exactly one ENDMARKER, as the
final token; inputs whose final line lacks a line terminator get exactly
one synthetic (value-less) NEWLINE, sitting right before the ENDMARKER,
and inputs ending in a terminator get none. -/
theorem optoifocad_C8 (s : String) (toks : List Token)
    (h : tokenizeCore s = .ok toks) :
    toks.countP (fun t => t.type == TokType.ENDMARKER) = 1
    ∧ (toks.getLast?).map Token.type = some TokType.ENDMARKER
    ∧ toks.countP isSyntheticNewline = (if needsSyntheticNL s then 1 else 0)
    ∧ (needsSyntheticNL s = true →
        ((toks.dropLast).getLast?).map (fun t => (t.type, t.value)) =
          some (TokType.NEWLINE, none)) := by
  obtain ⟨body, ln, idx, hbody, _, hcase⟩ := tokenizeCore_ok_shape s toks h
  have hend : body.countP (fun t => t.type == TokType.ENDMARKER) = 0 := by
    rw [List.countP_eq_zero]
    intro t ht
    simpa using (hbody t ht).2.1
  have hsyn : body.countP isSyntheticNewline = 0 := by
    rw [List.countP_eq_zero]
    intro t ht
    have hv := (hbody t ht).1
    simp only [isSyntheticNewline, Bool.and_eq_true, not_and]
    intro _
    cases hvv : t.value with
    | none => rw [hvv] at hv; simp at hv
    | some _ => simp
  rcases hcase with ⟨hneed, rfl⟩ | ⟨hneed, rfl⟩
  · have hsplit : body ++ [(⟨ln, idx + 1, idx + 1, TokType.NEWLINE, none⟩ : Token),
        ⟨ln + 1, 1, 1, TokType.ENDMARKER, none⟩] =
        (body ++ [⟨ln, idx + 1, idx + 1, TokType.NEWLINE, none⟩]) ++
          [⟨ln + 1, 1, 1, TokType.ENDMARKER, none⟩] := by simp
    refine ⟨?_, ?_, ?_, ?_⟩
    · rw [List.countP_append, hend]; rfl
    · rw [hsplit, List.getLast?_concat]; rfl
    · rw [List.countP_append, hsyn, hneed]; rfl
    · intro _
      rw [hsplit, List.dropLast_concat, List.getLast?_concat]; rfl
  · refine ⟨?_, ?_, ?_, ?_⟩
    · rw [List.countP_append, hend]; rfl
    · rw [List.getLast?_concat]; rfl
    · rw [List.countP_append, hsyn, hneed]; rfl
    · intro hcontra
      rw [hneed] at hcontra
      cases hcontra

/-- C8 witness at the concrete input `"a"` (no final line terminator). -/
theorem optoifocad_C8_witness :
    ([⟨1, 1, 2, TokType.NAME, some "a"⟩, ⟨1, 2, 2, TokType.NEWLINE, none⟩,
      ⟨2, 1, 1, TokType.ENDMARKER, none⟩] : List Token).countP
        (fun t => t.type == TokType.ENDMARKER) = 1
    ∧ (([⟨1, 1, 2, TokType.NAME, some "a"⟩, ⟨1, 2, 2, TokType.NEWLINE, none⟩,
      ⟨2, 1, 1, TokType.ENDMARKER, none⟩] : List Token).getLast?).map Token.type =
        some TokType.ENDMARKER
    ∧ ([⟨1, 1, 2, TokType.NAME, some "a"⟩, ⟨1, 2, 2, TokType.NEWLINE, none⟩,
      ⟨2, 1, 1, TokType.ENDMARKER, none⟩] : List Token).countP isSyntheticNewline =
        (if needsSyntheticNL "a" then 1 else 0)
    ∧ (needsSyntheticNL "a" = true →
        ((([⟨1, 1, 2, TokType.NAME, some "a"⟩, ⟨1, 2, 2, TokType.NEWLINE, none⟩,
          ⟨2, 1, 1, TokType.ENDMARKER, none⟩] : List Token).dropLast).getLast?).map
            (fun t => (t.type, t.value)) = some (TokType.NEWLINE, none)) :=
  optoifocad_C8 "a" _ rfl

/-- C9 counterexample: the claim's "one located error per unclosed
opener" fails on `"(("` — the `for` loop over the leftover nesting stack
raises on its FIRST iteration, so tokenizing `"(("` produces exactly one
error, the one located at the first opener (column 1); the would-be
report for the second opener (column 2) never occurs, since the single
raised error differs from it. -/
theorem optoifocad_C9_cex :
    tokenizeCore "((" = .error (.syntaxError (unclosedMsg "(") 1 1 2 (some "("))
    ∧ (PyErr.syntaxError (unclosedMsg "(") 1 1 2 (some "(")) ≠
        .syntaxError (unclosedMsg "(") 1 2 3 (some "(") :=
  ⟨rfl, by simp⟩

/-- C9 (amended): every `[`/`(` is pushed on the nesting stack and every
`]`/`)` pops it with a kind check — so any successfully tokenized input
has a properly nested, kind-matched bracket sequence; a mismatched or
unbalanced closer raises an immediate located "extraneous" error; and
openers left unmatched at end of input raise a single located "unclosed"
error naming the first (outermost) unclosed opener. -/
theorem optoifocad_C9 :
    (∀ (s : String) (toks : List Token), tokenizeCore s = .ok toks →
      runBr [] (toks.map Token.type) = some [])
    ∧ tokenizeCore "]" = .error (.syntaxError (extraneousMsg "]") 1 1 2 (some "]"))
    ∧ tokenizeCore "(]" = .error (.syntaxError (extraneousMsg "]") 1 2 3 (some "]"))
    ∧ tokenizeCore "(" = .error (.syntaxError (unclosedMsg "(") 1 1 2 (some "(")) := by
  refine ⟨?_, rfl, rfl, rfl⟩
  intro s toks h
  obtain ⟨body, ln, idx, _, hrun, hcase⟩ := tokenizeCore_ok_shape s toks h
  rcases hcase with ⟨_, rfl⟩ | ⟨_, rfl⟩ <;>
    · rw [List.map_append, runBr_append, hrun]; rfl

/-- C9 witness: the balanced input `"[]"`. -/
theorem optoifocad_C9_witness :
    runBr [] (([⟨1, 1, 2, TokType.LBRACKET, some "["⟩,
      ⟨1, 2, 3, TokType.RBRACKET, some "]"⟩, ⟨1, 3, 3, TokType.NEWLINE, none⟩,
      ⟨2, 1, 1, TokType.ENDMARKER, none⟩] : List Token).map Token.type) = some [] :=
  optoifocad_C9.1 "[]" _ rfl

/-- C10 counterexample: a tab skipped as ignorable whitespace does NOT
inflate later columns on the line.  On `"\ta\n"` the token `a` gets start
column 2 (the raw index plus one) — the claim's display-column reading
(tab occupying `_TAB_SIZE` = 4 columns) would put it at column
`1 + tabWidth` = 5.  The skip branch of the inner loop only advances
`_index`; `_taboffset` grows solely from tabs inside matched token
values. -/
theorem optoifocad_C10_cex :
    tokenizeCore "\ta\n" = .ok [⟨1, 2, 3, TokType.NAME, some "a"⟩,
      ⟨1, 3, 4, TokType.NEWLINE, some "\n"⟩, ⟨2, 1, 1, TokType.ENDMARKER, none⟩]
    ∧ 2 ≠ 1 + tabWidth :=
  ⟨rfl, by simp [tabWidth]⟩

/-- C10 (amended): token columns are 1-based, and only tabs occurring
inside previously matched token values on the same line inflate later
columns (by `_TAB_SIZE - 1` = 3 each): on `"#\t\n"` the comment token
`"#\t"` contains a tab, so the following NEWLINE starts at column
6 = 3 (raw) + 3 (inflation); on `"\ta\n"` the skipped leading tab adds
nothing and `a` starts at raw column 2. -/
theorem optoifocad_C10 :
    (∀ (s : String) (toks : List Token), tokenizeCore s = .ok toks →
      ∀ t ∈ toks, 1 ≤ t.start_index)
    ∧ tokenizeCore "#\t\n" = .ok [⟨1, 1, 6, TokType.COMMENT, some "#\t"⟩,
        ⟨1, 6, 7, TokType.NEWLINE, some "\n"⟩, ⟨2, 1, 1, TokType.ENDMARKER, none⟩]
    ∧ tokenizeCore "\ta\n" = .ok [⟨1, 2, 3, TokType.NAME, some "a"⟩,
        ⟨1, 3, 4, TokType.NEWLINE, some "\n"⟩, ⟨2, 1, 1, TokType.ENDMARKER, none⟩] := by
  refine ⟨?_, rfl, rfl⟩
  intro s toks h t ht
  obtain ⟨body, ln, idx, hbody, _, hcase⟩ := tokenizeCore_ok_shape s toks h
  rcases hcase with ⟨_, rfl⟩ | ⟨_, rfl⟩ <;>
    rcases List.mem_append.mp ht with hmem | hmem
  · exact (hbody t hmem).2.2
  · simp only [List.mem_cons, List.mem_singleton] at hmem
    rcases hmem with rfl | rfl | h'
    · exact Nat.le_add_left 1 idx
    · exact le_refl 1
    · cases h'
  · exact (hbody t hmem).2.2
  · simp only [List.mem_singleton] at hmem
    subst hmem
    exact le_refl 1

/-- C10 witness: the first token of `"\ta\n"`. -/
theorem optoifocad_C10_witness :
    1 ≤ (⟨1, 2, 3, TokType.NAME, some "a"⟩ : Token).start_index :=
  optoifocad_C10.1 "\ta\n"
    [⟨1, 2, 3, TokType.NAME, some "a"⟩, ⟨1, 3, 4, TokType.NEWLINE, some "\n"⟩,
     ⟨2, 1, 1, TokType.ENDMARKER, none⟩] rfl
    ⟨1, 2, 3, TokType.NAME, some "a"⟩ (by simp)

end Optoifocad
